import Mathlib

/-!
Verification of the giveaway / tempban reconciliation core of the
NorthernHub Discord bot (source file `mainv2.py`).

Python strings are modelled as `List Char`; Python `dict`s as association
lists; exceptions as `Except PyExc`; the injectable random source as a
function `Nat → Nat`.  Each definition mirrors the corresponding Python
function or command body.
-/

set_option autoImplicit false

namespace NorthernHub

/-- The Python exceptions that the modelled code can raise or catch.
`forbidden` and `httpException` are the platform-client failures
(`discord.Forbidden`, `discord.HTTPException`) its calls can raise. -/
inductive PyExc where
  | valueError
  | indexError
  | typeError
  | keyError
  | forbidden
  | httpException
  deriving DecidableEq, Repr

/-! ### Python string primitives over `List Char` -/

/-- `leadsWith p s` is true when `p` is an initial segment of `s`
(models `str.startswith`). -/
def leadsWith : List Char → List Char → Bool
  | [], _ => true
  | _ :: _, [] => false
  | c :: cs, d :: ds => c = d && leadsWith cs ds

/-- Characters accepted by Python `str.strip()` with no argument. -/
def isSpaceC (c : Char) : Bool :=
  c = ' ' || c = '\t' || c = '\n' || c = '\r' || c = '\x0b' || c = '\x0c'

/-- `str.strip()`: remove leading and trailing whitespace. -/
def pyStrip (s : List Char) : List Char :=
  ((s.dropWhile isSpaceC).reverse.dropWhile isSpaceC).reverse

/-- First occurrence of (non-empty) `sep` in `s`: returns the part before
the occurrence and the part after it, or `none` when `sep` does not occur.
This is the one-step engine behind Python `str.split(sep)`. -/
def splitOnce (sep : List Char) : List Char → Option (List Char × List Char)
  | [] => none
  | c :: cs =>
    if leadsWith sep (c :: cs) then some ([], (c :: cs).drop sep.length)
    else
      match splitOnce sep cs with
      | some (b, a) => some (c :: b, a)
      | none => none

/-- `s.split(sep)[0]`: the part of `s` before the first occurrence of `sep`
(`s` itself when `sep` does not occur).  Never raises. -/
def splitIdx0 (sep s : List Char) : List Char :=
  match splitOnce sep s with
  | some (b, _) => b
  | none => s

/-- `s.split(sep)[1]`: the part of `s` between the first and the second
occurrence of `sep`; raises `IndexError` when `sep` does not occur. -/
def splitIdx1 (sep s : List Char) : Except PyExc (List Char) :=
  match splitOnce sep s with
  | none => .error .indexError
  | some (_, a) => .ok (splitIdx0 sep a)

theorem leadsWith_append_self (p t : List Char) : leadsWith p (p ++ t) = true := by
  induction p with
  | nil => rfl
  | cons c cs ih => simp [leadsWith, ih]

theorem leadsWith_eq_append {p s : List Char} (h : leadsWith p s = true) :
    s = p ++ s.drop p.length := by
  induction p generalizing s with
  | nil => simp
  | cons c cs ih =>
    cases s with
    | nil => simp [leadsWith] at h
    | cons d ds =>
      simp only [leadsWith, Bool.and_eq_true, decide_eq_true_eq] at h
      obtain ⟨rfl, h2⟩ := h
      simpa using ih h2

theorem leadsWith_getElem? {p s : List Char} (h : leadsWith p s = true) :
    ∀ j, j < p.length → s[j]? = p[j]? := by
  induction p generalizing s with
  | nil => intro j hj; simp at hj
  | cons c cs ih =>
    cases s with
    | nil => simp [leadsWith] at h
    | cons d ds =>
      simp only [leadsWith, Bool.and_eq_true, decide_eq_true_eq] at h
      obtain ⟨rfl, h2⟩ := h
      intro j hj
      cases j with
      | zero => simp
      | succ j => simpa using ih h2 j (by simpa using hj)

theorem length_le_of_leadsWith {p s : List Char} (h : leadsWith p s = true) :
    p.length ≤ s.length := by
  have := leadsWith_eq_append h
  have hlen := congrArg List.length this
  simp at hlen
  omega

theorem splitOnce_append_self {sep : List Char} (hsep : sep ≠ []) (t : List Char) :
    splitOnce sep (sep ++ t) = some ([], t) := by
  cases sep with
  | nil => exact absurd rfl hsep
  | cons c cs =>
    show splitOnce (c :: cs) (c :: (cs ++ t)) = _
    rw [splitOnce]
    have h1 : leadsWith (c :: cs) (c :: cs ++ t) = true := leadsWith_append_self _ _
    simp only [List.cons_append] at h1
    rw [if_pos h1]
    have : ((c :: (cs ++ t)).drop (c :: cs).length) = t := by
      have h2 := List.drop_left (c :: cs) t
      simp only [List.cons_append] at h2
      exact h2
    rw [this]

theorem splitOnce_eq_some {sep s b a : List Char}
    (h : splitOnce sep s = some (b, a)) :
    s = b ++ sep ++ a ∧ ∀ i, i < b.length → leadsWith sep (s.drop i) = false := by
  induction s generalizing b with
  | nil => simp [splitOnce] at h
  | cons c cs ih =>
    rw [splitOnce] at h
    by_cases hl : leadsWith sep (c :: cs) = true
    · rw [if_pos hl] at h
      injection h with h
      injection h with hb ha
      subst hb
      refine ⟨?_, by intro i hi; simp at hi⟩
      have := leadsWith_eq_append hl
      rw [← ha]
      simpa using this
    · rw [if_neg hl] at h
      cases hrec : splitOnce sep cs with
      | none => rw [hrec] at h; exact absurd h (by simp)
      | some p =>
        obtain ⟨b0, a0⟩ := p
        rw [hrec] at h
        injection h with h
        injection h with hb ha
        subst ha
        obtain ⟨hcs, hnone⟩ := ih hrec
        constructor
        · rw [← hb]; simp [hcs]
        · intro i hi
          cases i with
          | zero => simpa using Bool.eq_false_iff.mpr hl
          | succ i =>
            rw [← hb] at hi
            simp only [List.drop_succ_cons]
            exact hnone i (by simpa using hi)

theorem splitOnce_append_left {sep x y : List Char}
    (hx : ∀ i, i < x.length → leadsWith sep ((x ++ y).drop i) = false) :
    splitOnce sep (x ++ y) =
      match splitOnce sep y with
      | some (b, a) => some (x ++ b, a)
      | none => none := by
  induction x with
  | nil =>
    simp only [List.nil_append]
    cases splitOnce sep y with
    | none => rfl
    | some p => obtain ⟨b, a⟩ := p; rfl
  | cons c cs ih =>
    have h0 : leadsWith sep (c :: (cs ++ y)) = false := by
      have := hx 0 (by simp)
      simpa using this
    show splitOnce sep (c :: (cs ++ y)) = _
    rw [splitOnce, h0]
    simp only [Bool.false_eq_true, if_false]
    rw [ih]
    · cases splitOnce sep y with
      | none => rfl
      | some p => obtain ⟨b, a⟩ := p; rfl
    · intro i hi
      have := hx (i + 1) (by simp; omega)
      simpa using this

/-! ### Digits and zero-padded decimal rendering -/

/-- The ASCII digit character for `n % 10`. -/
def digitChr (n : Nat) : Char := Char.ofNat (48 + n % 10)

/-- Numeric value of an ASCII digit character. -/
def chrVal (c : Char) : Nat := c.toNat - 48

/-- Is `c` an ASCII digit? -/
def isDigitC (c : Char) : Bool := 48 ≤ c.toNat && c.toNat ≤ 57

/-- Two-digit zero-padded rendering of `n % 100`. -/
def pad2 (n : Nat) : List Char := [digitChr (n / 10), digitChr n]

/-- Four-digit zero-padded rendering of `n % 10000`. -/
def pad4 (n : Nat) : List Char := pad2 (n / 100) ++ pad2 n

/-- Six-digit zero-padded rendering of `n % 1000000`. -/
def pad6 (n : Nat) : List Char := pad2 (n / 10000) ++ pad2 (n / 100) ++ pad2 n

theorem chrVal_digitChr (n : Nat) : chrVal (digitChr n) = n % 10 := by
  have h : n % 10 < 10 := Nat.mod_lt _ (by norm_num)
  rw [digitChr]
  set t := n % 10 with ht
  interval_cases t <;> rfl

theorem isDigitC_digitChr (n : Nat) : isDigitC (digitChr n) = true := by
  have h : n % 10 < 10 := Nat.mod_lt _ (by norm_num)
  rw [digitChr]
  set t := n % 10 with ht
  interval_cases t <;> rfl

theorem digitChr_isDigit (n : Nat) : (digitChr n).toNat = 48 + n % 10 := by
  have h : n % 10 < 10 := Nat.mod_lt _ (by norm_num)
  rw [digitChr]
  set t := n % 10 with ht
  interval_cases t <;> rfl

/-! ### Eating digit groups (the front ends of `datetime.fromisoformat`) -/

/-- Read two ASCII digits off the front of `s`. -/
def eatD2 : List Char → Option (Nat × List Char)
  | a :: b :: t =>
    if isDigitC a && isDigitC b then some (chrVal a * 10 + chrVal b, t) else none
  | _ => none

/-- Read an expected literal character off the front of `s`. -/
def eatChar (c : Char) : List Char → Option (List Char)
  | d :: t => if d = c then some t else none
  | _ => none

/-- Read four ASCII digits off the front of `s`. -/
def eatD4 (s : List Char) : Option (Nat × List Char) :=
  match eatD2 s with
  | none => none
  | some (hi, s1) =>
    match eatD2 s1 with
    | none => none
    | some (lo, s2) => some (hi * 100 + lo, s2)

/-- Read six ASCII digits off the front of `s`. -/
def eatD6 (s : List Char) : Option (Nat × List Char) :=
  match eatD2 s with
  | none => none
  | some (a, s1) =>
    match eatD2 s1 with
    | none => none
    | some (b, s2) =>
      match eatD2 s2 with
      | none => none
      | some (c, s3) => some ((a * 100 + b) * 100 + c, s3)

theorem eatD2_pad2 (n : Nat) (t : List Char) :
    eatD2 (pad2 n ++ t) = some (n % 100, t) := by
  show eatD2 (digitChr (n / 10) :: digitChr n :: t) = some (n % 100, t)
  rw [eatD2]
  simp only [isDigitC_digitChr, Bool.and_self, if_true, chrVal_digitChr]
  have : n / 10 % 10 * 10 + n % 10 = n % 100 := by omega
  rw [this]

theorem eatChar_cons (c : Char) (t : List Char) : eatChar c (c :: t) = some t := by
  simp [eatChar]

theorem eatChar_cons_ne {c d : Char} (h : d ≠ c) (t : List Char) :
    eatChar c (d :: t) = none := by
  simp [eatChar, h]

theorem eatD4_pad4 {n : Nat} (h : n < 10000) (t : List Char) :
    eatD4 (pad4 n ++ t) = some (n, t) := by
  rw [pad4, List.append_assoc]
  simp only [eatD4, eatD2_pad2]
  have : n / 100 % 100 * 100 + n % 100 = n := by omega
  rw [this]

theorem eatD6_pad6 {n : Nat} (h : n < 1000000) (t : List Char) :
    eatD6 (pad6 n ++ t) = some (n, t) := by
  rw [pad6, List.append_assoc, List.append_assoc]
  simp only [eatD6, eatD2_pad2]
  have : (n / 10000 % 100 * 100 + n / 100 % 100) * 100 + n % 100 = n := by omega
  rw [this]

/-! ### `datetime` objects, `isoformat` and `fromisoformat` -/

/-- A Python `datetime`.  `offsetMinutes = none` models a naive datetime;
`some o` models `timezone(timedelta(minutes=o))`.  The program only ever
builds `some 0` (`timezone.utc`). -/
structure PyDatetime where
  year : Nat
  month : Nat
  day : Nat
  hour : Nat
  minute : Nat
  second : Nat
  microsecond : Nat
  offsetMinutes : Option Int
  deriving DecidableEq, Repr

/-- Field ranges a real `datetime` satisfies. -/
def validDT (d : PyDatetime) : Prop :=
  1 ≤ d.year ∧ d.year ≤ 9999 ∧ 1 ≤ d.month ∧ d.month ≤ 12 ∧ 1 ≤ d.day ∧ d.day ≤ 31 ∧
    d.hour ≤ 23 ∧ d.minute ≤ 59 ∧ d.second ≤ 59 ∧ d.microsecond ≤ 999999

instance (d : PyDatetime) : Decidable (validDT d) := by unfold validDT; infer_instance

/-- `"+HH:MM"` / `"-HH:MM"` rendering of a UTC offset in minutes. -/
def renderOffset (o : Int) : List Char :=
  (if o < 0 then '-' else '+') :: (pad2 (o.natAbs / 60) ++ ':' :: pad2 (o.natAbs % 60))

/-- The `.ffffff` fraction of `isoformat`, omitted exactly when
`microsecond == 0`. -/
def microPart (us : Nat) : List Char := if us = 0 then [] else '.' :: pad6 us

/-- The `±HH:MM` suffix of `isoformat`, omitted exactly for naive
datetimes. -/
def offsetPart : Option Int → List Char
  | none => []
  | some o => renderOffset o

/-- `datetime.isoformat()`: `YYYY-MM-DDTHH:MM:SS[.ffffff][+HH:MM]`. -/
def isoformat (d : PyDatetime) : List Char :=
  pad4 d.year ++ ('-' :: (pad2 d.month ++ ('-' :: (pad2 d.day ++
    ('T' :: (pad2 d.hour ++ (':' :: (pad2 d.minute ++ (':' :: (pad2 d.second ++
    (microPart d.microsecond ++ offsetPart d.offsetMinutes)))))))))))

/-- Trailing-offset part of `datetime.fromisoformat`: empty input means a
naive datetime, otherwise a full `±HH:MM` suffix is required. -/
def parseOffsetPart : List Char → Except PyExc (Option Int)
  | [] => .ok none
  | c :: t =>
    if c = '+' || c = '-' then
      match eatD2 t with
      | none => .error .valueError
      | some (hh, t1) =>
        match eatChar ':' t1 with
        | none => .error .valueError
        | some t2 =>
          match eatD2 t2 with
          | none => .error .valueError
          | some (mm, t3) =>
            match t3 with
            | [] =>
              .ok (some (if c = '-' then -((hh : Int) * 60 + mm) else (hh : Int) * 60 + mm))
            | _ => .error .valueError
    else .error .valueError

/-- Time-of-day part of `datetime.fromisoformat` (after the date). -/
def parseTimeTail (y mo dd : Nat) (rest : List Char) : Except PyExc PyDatetime :=
  if rest = [] then .ok ⟨y, mo, dd, 0, 0, 0, 0, none⟩
  else
    match eatChar 'T' rest with
    | none => .error .valueError
    | some s0 =>
      match eatD2 s0 with
      | none => .error .valueError
      | some (hh, s1) =>
        match eatChar ':' s1 with
        | none => .error .valueError
        | some s2 =>
          match eatD2 s2 with
          | none => .error .valueError
          | some (mi, s3) =>
            match eatChar ':' s3 with
            | none => .error .valueError
            | some s4 =>
              match eatD2 s4 with
              | none => .error .valueError
              | some (ss, s5) =>
                if hh ≤ 23 ∧ mi ≤ 59 ∧ ss ≤ 59 then
                  match eatChar '.' s5 with
                  | some s6 =>
                    match eatD6 s6 with
                    | none => .error .valueError
                    | some (us, s7) =>
                      (parseOffsetPart s7).map (fun off => ⟨y, mo, dd, hh, mi, ss, us, off⟩)
                  | none =>
                    (parseOffsetPart s5).map (fun off => ⟨y, mo, dd, hh, mi, ss, 0, off⟩)
                else .error .valueError

/-- `datetime.fromisoformat`, restricted to the layouts the program ever
produces or stores (`YYYY-MM-DD[THH:MM:SS[.ffffff]][±HH:MM]`); every other
input raises `ValueError`, exactly as the real function does for
non-ISO-8601 text. -/
def fromisoformat (s : List Char) : Except PyExc PyDatetime :=
  match eatD4 s with
  | none => .error .valueError
  | some (y, s1) =>
    match eatChar '-' s1 with
    | none => .error .valueError
    | some s2 =>
      match eatD2 s2 with
      | none => .error .valueError
      | some (mo, s3) =>
        match eatChar '-' s3 with
        | none => .error .valueError
        | some s4 =>
          match eatD2 s4 with
          | none => .error .valueError
          | some (dd, s5) =>
            if 1 ≤ y ∧ 1 ≤ mo ∧ mo ≤ 12 ∧ 1 ≤ dd ∧ dd ≤ 31 then
              parseTimeTail y mo dd s5
            else .error .valueError

/-- Linearization of an aware datetime: lexicographic over the fields with
the offset subtracted, in microsecond units.  For the comparisons the
program performs (both sides UTC, i.e. equal offsets) this agrees exactly
with Python's instant comparison. -/
def dtKey (d : PyDatetime) (o : Int) : Int :=
  ((((((d.year : Int) * 13 + d.month) * 32 + d.day) * 24 + d.hour) * 60 + d.minute) * 60
      + d.second) * 1000000 + d.microsecond - o * 60000000

/-- `a >= b` on datetimes: raises `TypeError` when exactly the real
comparison would (mixing naive and aware operands). -/
def pyGeDt (a b : PyDatetime) : Except PyExc Bool :=
  match a.offsetMinutes, b.offsetMinutes with
  | some oa, some ob => .ok (decide (dtKey b ob ≤ dtKey a oa))
  | _, _ => .error .typeError

theorem renderOffset_zero : renderOffset 0 = '+' :: '0' :: '0' :: ':' :: '0' :: '0' :: [] := by
  rfl

theorem parseOffsetPart_utc :
    parseOffsetPart ('+' :: '0' :: '0' :: ':' :: '0' :: '0' :: []) = .ok (some 0) := by
  rfl

/-- Round trip: parsing back a rendered aware-UTC datetime recovers it. -/
theorem fromisoformat_isoformat {d : PyDatetime} (hv : validDT d)
    (ho : d.offsetMinutes = some 0) : fromisoformat (isoformat d) = .ok d := by
  obtain ⟨y, mo, dd, hh, mi, ss, us, off⟩ := d
  obtain ⟨h1, h2, h3, h4, h5, h6, h7, h8, h9, h10⟩ := hv
  simp only at h1 h2 h3 h4 h5 h6 h7 h8 h9 h10
  simp only [Option.some.injEq] at ho
  subst ho
  have e1 : mo % 100 = mo := by omega
  have e2 : dd % 100 = dd := by omega
  have e3 : hh % 100 = hh := by omega
  have e4 : mi % 100 = mi := by omega
  have e5 : ss % 100 = ss := by omega
  have hy : y < 10000 := by omega
  have hcond1 : 1 ≤ y ∧ 1 ≤ mo ∧ mo ≤ 12 ∧ 1 ≤ dd ∧ dd ≤ 31 := by omega
  have hcond2 : hh ≤ 23 ∧ mi ≤ 59 ∧ ss ≤ 59 := by omega
  rw [isoformat]
  simp only [microPart, offsetPart, renderOffset_zero]
  by_cases hus : us = 0
  · subst hus
    rw [if_pos rfl]
    rw [fromisoformat]
    simp only [List.append_assoc, List.cons_append, List.nil_append,
      eatD4_pad4 hy, eatChar_cons, eatD2_pad2, e1, e2]
    rw [if_pos hcond1, parseTimeTail]
    rw [if_neg (by simp [pad2])]
    simp only [eatChar_cons, eatD2_pad2, e3, e4, e5]
    rw [if_pos hcond2]
    rw [eatChar_cons_ne (show ('+' : Char) ≠ '.' by decide) _]
    simp only [parseOffsetPart_utc, Except.map]
  · rw [if_neg hus]
    rw [fromisoformat]
    simp only [List.append_assoc, List.cons_append, List.nil_append,
      eatD4_pad4 hy, eatChar_cons, eatD2_pad2, e1, e2]
    rw [if_pos hcond1, parseTimeTail]
    rw [if_neg (by simp [pad2])]
    simp only [eatChar_cons, eatD2_pad2, e3, e4, e5]
    rw [if_pos hcond2]
    simp only [eatD6_pad6 (show us < 1000000 by omega), parseOffsetPart_utc, Except.map]

/-! ### The character alphabet of rendered timestamps -/

/-- Characters that can appear in `datetime.isoformat()` output. -/
def stampOK (c : Char) : Bool :=
  isDigitC c || c = '-' || c = ':' || c = 'T' || c = '+' || c = '.'

theorem forall_stamp_append {l₁ l₂ : List Char}
    (h₁ : ∀ c ∈ l₁, stampOK c = true) (h₂ : ∀ c ∈ l₂, stampOK c = true) :
    ∀ c ∈ l₁ ++ l₂, stampOK c = true := by
  intro c hc
  rcases List.mem_append.mp hc with h | h
  · exact h₁ c h
  · exact h₂ c h

theorem forall_stamp_cons {c₀ : Char} {l : List Char}
    (h₀ : stampOK c₀ = true) (h : ∀ c ∈ l, stampOK c = true) :
    ∀ c ∈ c₀ :: l, stampOK c = true := by
  intro c hc
  rcases List.mem_cons.mp hc with rfl | h2
  · exact h₀
  · exact h c h2

theorem forall_stamp_nil : ∀ c ∈ ([] : List Char), stampOK c = true := by
  intro c hc
  exact absurd hc (List.not_mem_nil c)

theorem stampOK_pad2 (n : Nat) : ∀ c ∈ pad2 n, stampOK c = true := by
  intro c hc
  rcases List.mem_cons.mp hc with rfl | hc2
  · simp [stampOK, isDigitC_digitChr]
  · rcases List.mem_cons.mp hc2 with rfl | hc3
    · simp [stampOK, isDigitC_digitChr]
    · exact absurd hc3 (List.not_mem_nil c)

theorem stampOK_microPart (us : Nat) : ∀ c ∈ microPart us, stampOK c = true := by
  rw [microPart]
  by_cases hus : us = 0
  · rw [if_pos hus]; exact forall_stamp_nil
  · rw [if_neg hus, pad6]
    refine forall_stamp_cons (by decide) ?_
    exact forall_stamp_append (forall_stamp_append (stampOK_pad2 _) (stampOK_pad2 _))
      (stampOK_pad2 _)

theorem stampOK_offsetPart (o : Option Int) : ∀ c ∈ offsetPart o, stampOK c = true := by
  cases o with
  | none => exact forall_stamp_nil
  | some o =>
    show ∀ c ∈ renderOffset o, stampOK c = true
    rw [renderOffset]
    refine forall_stamp_cons ?_ ?_
    · by_cases hsg : o < 0
      · rw [if_pos hsg]; decide
      · rw [if_neg hsg]; decide
    · exact forall_stamp_append (stampOK_pad2 _)
        (forall_stamp_cons (by decide) (stampOK_pad2 _))

theorem stampOK_isoformat (d : PyDatetime) : ∀ c ∈ isoformat d, stampOK c = true := by
  rw [isoformat, pad4]
  refine forall_stamp_append (forall_stamp_append (stampOK_pad2 _) (stampOK_pad2 _)) ?_
  refine forall_stamp_cons (by decide) ?_
  refine forall_stamp_append (stampOK_pad2 _) ?_
  refine forall_stamp_cons (by decide) ?_
  refine forall_stamp_append (stampOK_pad2 _) ?_
  refine forall_stamp_cons (by decide) ?_
  refine forall_stamp_append (stampOK_pad2 _) ?_
  refine forall_stamp_cons (by decide) ?_
  refine forall_stamp_append (stampOK_pad2 _) ?_
  refine forall_stamp_cons (by decide) ?_
  refine forall_stamp_append (stampOK_pad2 _) ?_
  exact forall_stamp_append (stampOK_microPart _) (stampOK_offsetPart _)

theorem stampOK_ne_e {c : Char} (h : stampOK c = true) : c ≠ 'e' := by
  intro he
  rw [he] at h
  exact absurd h (by decide)

theorem stampOK_ne_space {c : Char} (h : stampOK c = true) : c ≠ ' ' := by
  intro he
  rw [he] at h
  exact absurd h (by decide)

theorem stampOK_not_space {c : Char} (h : stampOK c = true) : isSpaceC c = false := by
  simp only [stampOK, Bool.or_eq_true, decide_eq_true_eq] at h
  rcases h with ((((hd | rfl) | rfl) | rfl) | rfl) | rfl
  · simp only [isDigitC, Bool.and_eq_true, decide_eq_true_eq] at hd
    apply Bool.eq_false_iff.mpr
    intro hsp
    simp only [isSpaceC, Bool.or_eq_true, decide_eq_true_eq] at hsp
    rcases hsp with ((((rfl | rfl) | rfl) | rfl) | rfl) | rfl <;> exact absurd hd (by decide)
  all_goals decide

theorem dropWhile_eq_self_of_false {p : Char → Bool} {l : List Char}
    (h : ∀ c ∈ l, p c = false) : l.dropWhile p = l := by
  cases l with
  | nil => rfl
  | cons c t =>
    rw [List.dropWhile_cons, h c (by simp)]
    simp

theorem pyStrip_eq_self {l : List Char} (h : ∀ c ∈ l, isSpaceC c = false) :
    pyStrip l = l := by
  rw [pyStrip, dropWhile_eq_self_of_false h,
    dropWhile_eq_self_of_false (fun c hc => h c (List.mem_reverse.mp hc)),
    List.reverse_reverse]

/-! ### Where the tempban separators can occur inside a stored reason -/

theorem leadsWith_drop_getElem? {p l : List Char} {i : Nat}
    (h : leadsWith p (l.drop i) = true) (j : Nat) (hj : j < p.length) :
    l[i + j]? = p[j]? := by
  have h2 := leadsWith_getElem? h j hj
  rwa [List.getElem?_drop] at h2

theorem no_sepTU_occurrence (d : PyDatetime) (w : List Char) (i : Nat)
    (hi : i < (isoformat d).length + 11) :
    leadsWith ("Tempban until: ".toList)
      ((isoformat d ++ (" | Reason: ".toList ++ w)).drop i) = false := by
  apply Bool.eq_false_iff.mpr
  intro hcon
  have h0 := leadsWith_drop_getElem? hcon 0 (by decide)
  have h1 := leadsWith_drop_getElem? hcon 1 (by decide)
  rw [Nat.add_zero, show ("Tempban until: ".toList)[0]? = some 'T' from rfl] at h0
  rw [show ("Tempban until: ".toList)[1]? = some 'e' from rfl] at h1
  rcases Nat.lt_or_ge i (isoformat d).length with hlt | hge
  · rcases Nat.lt_or_ge (i + 1) (isoformat d).length with hlt2 | hge2
    · rw [List.getElem?_append_left hlt2] at h1
      exact stampOK_ne_e (stampOK_isoformat d 'e' (List.getElem?_mem h1)) rfl
    · rw [List.getElem?_append_right hge2] at h1
      rw [show i + 1 - (isoformat d).length = 0 from by omega] at h1
      have hsp : (" | Reason: ".toList ++ w)[0]? = some ' ' := rfl
      rw [hsp] at h1
      exact absurd h1 (by decide)
  · rw [List.getElem?_append_right hge] at h0
    have hlen : (" | Reason: ".toList).length = 11 := rfl
    have hk : i - (isoformat d).length < 11 := by omega
    rw [List.getElem?_append_left (by omega)] at h0
    set k := i - (isoformat d).length with hkdef
    interval_cases k <;> exact absurd h0 (by decide)

theorem no_sepR_occurrence (d : PyDatetime) (z : List Char) (i : Nat)
    (hi : i < (isoformat d).length) :
    leadsWith (" | Reason:".toList) ((isoformat d ++ z).drop i) = false := by
  apply Bool.eq_false_iff.mpr
  intro hcon
  have h0 := leadsWith_drop_getElem? hcon 0 (by decide)
  rw [Nat.add_zero, show (" | Reason:".toList)[0]? = some ' ' from rfl,
    List.getElem?_append_left hi] at h0
  exact stampOK_ne_space (stampOK_isoformat d ' ' (List.getElem?_mem h0)) rfl

theorem splitIdx0_reason (d : PyDatetime) (u : List Char) :
    splitIdx0 (" | Reason:".toList) (isoformat d ++ (" | Reason: ".toList ++ u))
      = isoformat d := by
  have hshape : isoformat d ++ (" | Reason: ".toList ++ u)
      = isoformat d ++ ((" | Reason:".toList) ++ (' ' :: u)) := rfl
  rw [hshape, splitIdx0,
    splitOnce_append_left (fun i hi => no_sepR_occurrence d _ i hi),
    splitOnce_append_self (by decide)]
  simp

theorem splitIdx0_twice (d : PyDatetime) (w : List Char) :
    splitIdx0 (" | Reason:".toList)
      (splitIdx0 ("Tempban until: ".toList) (isoformat d ++ (" | Reason: ".toList ++ w)))
      = isoformat d := by
  rcases hsplit :
      splitOnce ("Tempban until: ".toList) (isoformat d ++ (" | Reason: ".toList ++ w))
    with _ | ⟨b, a⟩
  · have hinner : splitIdx0 ("Tempban until: ".toList)
        (isoformat d ++ (" | Reason: ".toList ++ w))
        = isoformat d ++ (" | Reason: ".toList ++ w) := by
      rw [splitIdx0, hsplit]
    rw [hinner]
    exact splitIdx0_reason d w
  · have hinner : splitIdx0 ("Tempban until: ".toList)
        (isoformat d ++ (" | Reason: ".toList ++ w)) = b := by
      rw [splitIdx0, hsplit]
    rw [hinner]
    obtain ⟨heq, hmin⟩ := splitOnce_eq_some hsplit
    have hlead : leadsWith ("Tempban until: ".toList)
        ((isoformat d ++ (" | Reason: ".toList ++ w)).drop b.length) = true := by
      rw [heq, List.append_assoc, List.drop_left]
      exact leadsWith_append_self _ _
    have hgeb : (isoformat d).length + 11 ≤ b.length := by
      by_contra hcon
      push_neg at hcon
      have h2 := no_sepTU_occurrence d w b.length (by omega)
      rw [h2] at hlead
      simp at hlead
    have hbt : b = (isoformat d ++ (" | Reason: ".toList ++ w)).take b.length := by
      conv_rhs => rw [heq]
      rw [List.append_assoc, List.take_left]
    have hlen : (" | Reason: ".toList).length = 11 := rfl
    have hb : b = isoformat d ++
        (" | Reason: ".toList ++ w.take (b.length - (isoformat d).length - 11)) := by
      conv_lhs => rw [hbt, List.take_append_eq_append_take,
        List.take_append_eq_append_take]
      rw [List.take_of_length_le (show (isoformat d).length ≤ b.length by omega),
        List.take_of_length_le
          (show (" | Reason: ".toList).length ≤ b.length - (isoformat d).length by omega),
        hlen]
    rw [hb]
    exact splitIdx0_reason d _

/-! ### The tempban reason grammar and the reconciliation sweep
(`tempban` command line 1287 and `check_temp_bans` lines 273-297) -/

/-- The reason string the `tempban` command attaches to a platform ban:
`f"Tempban until: {end_time.isoformat()} | Reason: {reason} | Moderator: {interaction.user}"`. -/
def renderTempbanReason (d : PyDatetime) (r m : List Char) : List Char :=
  "Tempban until: ".toList ++ (isoformat d ++ (" | Reason: ".toList ++
    (r ++ (" | Moderator: ".toList ++ m))))

/-- Line 281 of `check_temp_bans`:
`ban_reason.split("Tempban until: ")[1].split(" | Reason:")[0].strip()`. -/
def tempbanExtract (s : List Char) : Except PyExc (List Char) :=
  match splitIdx1 ("Tempban until: ".toList) s with
  | .error e => .error e
  | .ok part => .ok (pyStrip (splitIdx0 (" | Reason:".toList) part))

theorem tempbanExtract_render (d : PyDatetime) (r m : List Char) :
    tempbanExtract (renderTempbanReason d r m) = .ok (isoformat d) := by
  have h2 := splitIdx0_twice d (r ++ (" | Moderator: ".toList ++ m))
  have hstrip : pyStrip (isoformat d) = isoformat d :=
    pyStrip_eq_self (fun c hc => stampOK_not_space (stampOK_isoformat d c hc))
  rw [renderTempbanReason, tempbanExtract, splitIdx1,
    splitOnce_append_self (by decide)]
  simp only [h2, hstrip]

/-- One entry of `guild.bans()`: the banned user and the stored reason
(`None` when the ban has no reason). -/
structure BanEntry where
  user : Nat
  reason : Option (List Char)
  deriving DecidableEq, Repr

/-- An `unban` call issued by the sweep. -/
structure UnbanCall where
  user : Nat
  deriving DecidableEq, Repr

/-- The body of `check_temp_bans` for a single ban entry (lines 278-293),
with the side-effecting platform calls injected: `unbanExc u` is the
exception `guild.unban` raises for user `u` (`none` = the call succeeds),
`logExc u` likewise for the log-channel lookup and send that follow a
successful unban.  The result is the unban calls issued for this entry
together with the exception, if any, that escapes the inner
`except (ValueError, IndexError)` at line 292: a malformed reason is
caught there and skipped, but the `TypeError` from comparing the aware
`now` with a naive parsed expiry, and any platform failure from
`unban`/`find_or_create_channel`/`send`, are not — they propagate to the
per-guild handler (lines 294-297). -/
def processBan (unbanExc logExc : Nat → Option PyExc) (now : PyDatetime)
    (b : BanEntry) : List UnbanCall × Option PyExc :=
  match b.reason with
  | none => ([], none)
  | some s =>
    if leadsWith ("Tempban until:".toList) s then
      match tempbanExtract s with
      | .error _ => ([], none)
      | .ok isoStr =>
        match fromisoformat isoStr with
        | .error _ => ([], none)
        | .ok endT =>
          match pyGeDt now endT with
          | .error e => ([], some e)
          | .ok false => ([], none)
          | .ok true =>
            match unbanExc b.user with
            | some e => ([], some e)
            | none =>
              match logExc b.user with
              | some e => ([⟨b.user⟩], some e)
              | none => ([⟨b.user⟩], none)
    else ([], none)

/-- One tick of the `check_temp_bans` loop over a guild's ban list:
entries are processed in order, and the first exception that escapes an
entry's processing is caught by the per-guild handler (lines 294-297),
which abandons the rest of this guild's bans for the tick.  The result is
the unban calls issued before any such abort. -/
def checkTempBansTick (unbanExc logExc : Nat → Option PyExc)
    (now : PyDatetime) : List BanEntry → List UnbanCall
  | [] => []
  | b :: rest =>
    match processBan unbanExc logExc now b with
    | (calls, none) => calls ++ checkTempBansTick unbanExc logExc now rest
    | (calls, some _) => calls

theorem leadsWith_renderTempbanReason (d : PyDatetime) (r m : List Char) :
    leadsWith ("Tempban until:".toList) (renderTempbanReason d r m) = true := by
  have hpr : renderTempbanReason d r m = "Tempban until:".toList ++
      (' ' :: (isoformat d ++ (" | Reason: ".toList ++
        (r ++ (" | Moderator: ".toList ++ m))))) := rfl
  rw [hpr]
  exact leadsWith_append_self _ _

theorem checkTempBansTick_append (unbanExc logExc : Nat → Option PyExc)
    (now : PyDatetime) :
    ∀ (pre rest : List BanEntry),
      (∀ b ∈ pre, (processBan unbanExc logExc now b).2 = none) →
      checkTempBansTick unbanExc logExc now (pre ++ rest)
        = checkTempBansTick unbanExc logExc now pre
          ++ checkTempBansTick unbanExc logExc now rest := by
  intro pre
  induction pre with
  | nil =>
    intro rest _
    simp [checkTempBansTick]
  | cons b pre2 ih =>
    intro rest h
    have hb := h b (List.mem_cons_self _ _)
    cases hpb : processBan unbanExc logExc now b with
    | mk calls exc =>
      rw [hpb] at hb
      cases exc with
      | some e => exact absurd hb (by simp)
      | none =>
        have hL : checkTempBansTick unbanExc logExc now ((b :: pre2) ++ rest)
            = calls ++ checkTempBansTick unbanExc logExc now (pre2 ++ rest) := by
          rw [List.cons_append, checkTempBansTick]
          simp only [hpb]
        have hR : checkTempBansTick unbanExc logExc now (b :: pre2)
            = calls ++ checkTempBansTick unbanExc logExc now pre2 := by
          rw [checkTempBansTick]
          simp only [hpb]
        rw [hL, hR, ih rest (fun b2 hb2 => h b2 (List.mem_cons_of_mem _ hb2)),
          List.append_assoc]

theorem checkTempBansTick_cons_of_none (unbanExc logExc : Nat → Option PyExc)
    (now : PyDatetime) (b : BanEntry) (rest : List BanEntry)
    (calls : List UnbanCall)
    (h : processBan unbanExc logExc now b = (calls, none)) :
    checkTempBansTick unbanExc logExc now (b :: rest)
      = calls ++ checkTempBansTick unbanExc logExc now rest := by
  rw [checkTempBansTick]
  simp only [h]

/-- The abort is real in the model: a reason carrying a naive (offsetless)
expiry parses, but comparing it with the aware `now` raises the
`TypeError` that only the per-guild handler catches, so an expired,
well-formed tempban later in the same guild's list gets no unban this
tick. -/
theorem checkTempBansTick_poison_aborts_rest :
    processBan (fun _ => none) (fun _ => none) ⟨2099, 6, 1, 12, 0, 0, 0, some 0⟩
      ⟨3, some ("Tempban until: 2020-01-01T00:00:00 | Reason: x | Moderator: y".toList)⟩
      = ([], some .typeError) ∧
    checkTempBansTick (fun _ => none) (fun _ => none) ⟨2099, 6, 1, 12, 0, 0, 0, some 0⟩
      [⟨3, some ("Tempban until: 2020-01-01T00:00:00 | Reason: x | Moderator: y".toList)⟩,
        ⟨7, some (renderTempbanReason ⟨2099, 1, 1, 0, 0, 0, 0, some 0⟩
          "spam".toList "X".toList)⟩]
      = [] := by
  refine ⟨rfl, rfl⟩

/-- C7: for a ban whose reason matches the tempban grammar
`"Tempban until: <expiry> | Reason: r | Moderator: m"` (with the expiry
rendered by `isoformat` as the `tempban` command does, hence aware), and
whose own platform calls succeed, processing the entry issues exactly one
unban call when `now` is at or after the expiry and none before, raising
nothing; a reason that does not match the grammar (wrong head, or no
reason at all) is skipped without error; and a tick of `check_temp_bans`
over any ban list in which every entry before the matching one processes
without an escaping exception reaches the matching ban and gives it
exactly its own unban call — an earlier entry that does raise (for
example a naive-stamp reason, `checkTempBansTick_poison_aborts_rest`)
aborts the guild's sweep instead, which the model keeps. -/
theorem c7_tempban_sweep_unban_iff (unbanExc logExc : Nat → Option PyExc)
    (now d : PyDatetime) (u : Nat) (r m : List Char)
    (hv : validDT d) (hod : d.offsetMinutes = some 0)
    (hon : now.offsetMinutes = some 0)
    (hu : unbanExc u = none) (hl : logExc u = none) :
    (processBan unbanExc logExc now ⟨u, some (renderTempbanReason d r m)⟩
        = if dtKey d 0 ≤ dtKey now 0 then ([⟨u⟩], none) else ([], none)) ∧
    (∀ v s, leadsWith ("Tempban until:".toList) s = false →
        processBan unbanExc logExc now ⟨v, some s⟩ = ([], none)) ∧
    (∀ v, processBan unbanExc logExc now ⟨v, none⟩ = ([], none)) ∧
    (∀ pre post,
        (∀ b ∈ pre, (processBan unbanExc logExc now b).2 = none) →
        checkTempBansTick unbanExc logExc now
            (pre ++ ⟨u, some (renderTempbanReason d r m)⟩ :: post)
          = checkTempBansTick unbanExc logExc now pre ++
            ((if dtKey d 0 ≤ dtKey now 0 then [⟨u⟩] else []) ++
              checkTempBansTick unbanExc logExc now post)) := by
  have h1 : processBan unbanExc logExc now ⟨u, some (renderTempbanReason d r m)⟩
      = if dtKey d 0 ≤ dtKey now 0 then ([⟨u⟩], none) else ([], none) := by
    rw [processBan]
    simp only [leadsWith_renderTempbanReason, if_true, tempbanExtract_render,
      fromisoformat_isoformat hv hod]
    rw [pyGeDt, hon, hod]
    by_cases hc : dtKey d 0 ≤ dtKey now 0
    · rw [if_pos hc]
      simp [hc, hu, hl]
    · rw [if_neg hc]
      simp [hc]
  refine ⟨h1, ?_, ?_, ?_⟩
  · intro v s hf
    simp only [String.toList] at hf
    rw [processBan]
    simp [hf]
  · intro v
    rfl
  · intro pre post hpre
    by_cases hc : dtKey d 0 ≤ dtKey now 0
    · rw [checkTempBansTick_append unbanExc logExc now pre _ hpre,
        checkTempBansTick_cons_of_none unbanExc logExc now _ post [⟨u⟩]
          (by rw [h1, if_pos hc]),
        if_pos hc]
    · rw [checkTempBansTick_append unbanExc logExc now pre _ hpre,
        checkTempBansTick_cons_of_none unbanExc logExc now _ post []
          (by rw [h1, if_neg hc]),
        if_neg hc]

/-- Witness for C7 at the spec's own scenario: expiry
`2099-01-01T00:00:00+00:00`, reason `spam`, moderator `X`, evaluated at a
`now` after the expiry with succeeding platform calls — the hypotheses
hold at this input and the conclusion evaluates. -/
theorem c7_tempban_sweep_unban_iff_witness :
    validDT ⟨2099, 1, 1, 0, 0, 0, 0, some 0⟩ ∧
    (⟨2099, 1, 1, 0, 0, 0, 0, some 0⟩ : PyDatetime).offsetMinutes = some 0 ∧
    (⟨2099, 6, 1, 12, 0, 0, 0, some 0⟩ : PyDatetime).offsetMinutes = some 0 ∧
    ((fun (_ : Nat) => (none : Option PyExc)) 7 = none) ∧
    ((fun (_ : Nat) => (none : Option PyExc)) 7 = none) ∧
    ((processBan (fun _ => none) (fun _ => none) ⟨2099, 6, 1, 12, 0, 0, 0, some 0⟩
        ⟨7, some (renderTempbanReason ⟨2099, 1, 1, 0, 0, 0, 0, some 0⟩
          "spam".toList "X".toList)⟩
        = if dtKey ⟨2099, 1, 1, 0, 0, 0, 0, some 0⟩ 0 ≤
            dtKey ⟨2099, 6, 1, 12, 0, 0, 0, some 0⟩ 0
          then ([⟨7⟩], none) else ([], none)) ∧
      (∀ v s, leadsWith ("Tempban until:".toList) s = false →
          processBan (fun _ => none) (fun _ => none)
            ⟨2099, 6, 1, 12, 0, 0, 0, some 0⟩ ⟨v, some s⟩ = ([], none)) ∧
      (∀ v, processBan (fun _ => none) (fun _ => none)
          ⟨2099, 6, 1, 12, 0, 0, 0, some 0⟩ ⟨v, none⟩ = ([], none)) ∧
      (∀ pre post,
          (∀ b ∈ pre, (processBan (fun _ => none) (fun _ => none)
            ⟨2099, 6, 1, 12, 0, 0, 0, some 0⟩ b).2 = none) →
          checkTempBansTick (fun _ => none) (fun _ => none)
            ⟨2099, 6, 1, 12, 0, 0, 0, some 0⟩
            (pre ++ ⟨7, some (renderTempbanReason ⟨2099, 1, 1, 0, 0, 0, 0, some 0⟩
              "spam".toList "X".toList)⟩ :: post)
            = checkTempBansTick (fun _ => none) (fun _ => none)
                ⟨2099, 6, 1, 12, 0, 0, 0, some 0⟩ pre ++
              ((if dtKey ⟨2099, 1, 1, 0, 0, 0, 0, some 0⟩ 0 ≤
                  dtKey ⟨2099, 6, 1, 12, 0, 0, 0, some 0⟩ 0
                then [⟨7⟩] else []) ++
                checkTempBansTick (fun _ => none) (fun _ => none)
                  ⟨2099, 6, 1, 12, 0, 0, 0, some 0⟩ post))) :=
  ⟨by decide, rfl, rfl, rfl, rfl,
    c7_tempban_sweep_unban_iff (fun _ => none) (fun _ => none)
      ⟨2099, 6, 1, 12, 0, 0, 0, some 0⟩
      ⟨2099, 1, 1, 0, 0, 0, 0, some 0⟩ 7 "spam".toList "X".toList
      (by decide) rfl rfl rfl rfl⟩

/-! ### Duration parsing (`tempban` lines 1268-1284, `parse_duration`
lines 213-224, `giveaway` lines 1433-1442) -/

/-- Python `int(str)`: optional surrounding whitespace, optional sign,
then a non-empty digit run; anything else raises `ValueError`. -/
def pyInt (s : List Char) : Except PyExc Int :=
  let t := pyStrip s
  let core : List Char → Except PyExc Int := fun ds =>
    if ds ≠ [] ∧ ds.all isDigitC then
      .ok (ds.foldl (fun acc c => acc * 10 + chrVal c) 0)
    else .error .valueError
  match t with
  | '+' :: ds => core ds
  | '-' :: ds => (core ds).map (fun v => -v)
  | ds => core ds

/-- The duration handling of the `tempban` command (lines 1268-1280):
`unit = duration[-1]; value = int(duration[:-1])`, then a unit table.
`.ok none` means the command replies "Invalid duration format" (the typed
rejection); `.error _` means an exception escapes the command body
(`IndexError` on `""`, `ValueError` from `int` on input like `"abc"`).
The result is the delta in seconds. -/
def tempbanDelta (dur : List Char) : Except PyExc (Option Int) :=
  match dur.getLast? with
  | none => .error .indexError
  | some unit =>
    (pyInt dur.dropLast).map (fun v =>
      if unit = 's' then some v
      else if unit = 'm' then some (v * 60)
      else if unit = 'h' then some (v * 3600)
      else if unit = 'd' then some (v * 86400)
      else if unit = 'w' then some (v * 604800)
      else none)

/-- One optional regex group `(?:(\d+)\s*u)?` of `parse_duration`:
greedily read digits, skip spaces, require the unit letter
(case-insensitively); on failure consume nothing. -/
def grpParse (u : Char) (s : List Char) : Nat × List Char :=
  let ds := s.takeWhile isDigitC
  if ds = [] then (0, s)
  else
    match (s.dropWhile isDigitC).dropWhile isSpaceC with
    | c :: tl =>
      if c.toLower = u.toLower then
        (ds.foldl (fun acc c => acc * 10 + chrVal c) 0, tl)
      else (0, s)
    | [] => (0, s)

/-- `parse_duration` (lines 213-224): anchored match of
`(?:(\d+)\s*d)?\s*(?:(\d+)\s*h)?\s*(?:(\d+)\s*m)?\s*(?:(\d+)\s*s)?`;
returns `none` when every group is empty (the typed rejection path of the
`giveaway` command), otherwise the timedelta in seconds.  Never raises. -/
def parse_duration (s : List Char) : Option Nat :=
  let t := pyStrip s
  let (d, t1) := grpParse 'd' t
  let (h, t2) := grpParse 'h' (t1.dropWhile isSpaceC)
  let (mi, t3) := grpParse 'm' (t2.dropWhile isSpaceC)
  let (ss, _) := grpParse 's' (t3.dropWhile isSpaceC)
  if d = 0 ∧ h = 0 ∧ mi = 0 ∧ ss = 0 then none
  else some (d * 86400 + h * 3600 + mi * 60 + ss)

/-- C8 (code bug evidence): the `tempban` command's duration handling
raises an uncaught `ValueError` on the malformed duration `"abc"`
(`int("ab")`) and an uncaught `IndexError` on `""` (`duration[-1]`),
instead of reaching its own typed "Invalid duration format" rejection;
`"10x"` does reach the typed rejection (`.ok none`), and the `giveaway`
command's `parse_duration` rejects `"abc"` gracefully with `None`. -/
theorem c8_tempban_malformed_duration_crashes :
    tempbanDelta "abc".toList = .error .valueError ∧
    tempbanDelta "".toList = .error .indexError ∧
    tempbanDelta "10x".toList = .ok none ∧
    tempbanDelta "2h".toList = .ok (some 7200) ∧
    parse_duration "abc".toList = none ∧
    parse_duration "2h".toList = some 7200 := by
  refine ⟨?_, ?_, ?_, ?_, ?_, ?_⟩ <;> rfl

/-! ### The giveaway registry (`giveaways_data`), entry, completion,
reroll and the scheduler sweep (`mainv2.py` lines 226-270, 299-318,
653-671, 1429-1530) -/

/-- One stored giveaway record (the dict built at lines 1461-1469).
`end_time = none` models a stored record whose `"end_time"` key is
missing (only reachable by hand-editing the JSON file). -/
structure StoredGiveaway where
  channel_id : Nat
  message_id : Nat
  prize : List Char
  winner_count : Nat
  end_time : Option (List Char)
  entries : List Nat
  host : Nat
  deriving DecidableEq, Repr

/-- `giveaways_data[guild_id]`: message-id → record.  Python dict keys are
unique; deletion is modelled by filtering the key out. -/
abbrev GuildGiveaways := List (Nat × StoredGiveaway)

/-- `giveaways_data`: guild-id → guild map. -/
abbrev GiveawaysData := List (Nat × GuildGiveaways)

/-- `guild_id in giveaways_data and message_id in giveaways_data[guild_id]`
followed by the read. -/
def lookupGive (st : GiveawaysData) (gid mid : Nat) : Option StoredGiveaway :=
  match st.lookup gid with
  | none => none
  | some gl => gl.lookup mid

/-- Apply `h` to the map stored under guild `gid`, leaving other guilds
untouched. -/
def mapGuild (st : GiveawaysData) (gid : Nat) (h : GuildGiveaways → GuildGiveaways) :
    GiveawaysData :=
  st.map (fun p => if p.1 = gid then (p.1, h p.2) else p)

/-- Replace the record stored under `(gid, mid)` (in-place mutation of the
dict entry). -/
def updateGive (st : GiveawaysData) (gid mid : Nat) (g : StoredGiveaway) :
    GiveawaysData :=
  mapGuild st gid (fun gl => gl.map (fun q => if q.1 = mid then (q.1, g) else q))

/-- `del giveaways_data[str(guild.id)][str(message_id)]`, guarded by the
two `in` checks (lines 262-264): removing an absent key is a no-op, and a
dict cannot hold a duplicate key, so deletion is filtering the key out. -/
def removeGive (st : GiveawaysData) (gid mid : Nat) : GiveawaysData :=
  mapGuild st gid (fun gl => gl.filter (fun q => q.1 != mid))

/-- Outcome of pressing the "Enter Giveaway" button. -/
inductive EntryResult where
  | entered
  | alreadyEntered
  | notFound
  deriving DecidableEq, Repr

/-- `GiveawayView.enter` (lines 658-671): not in the registry → "no longer
active"; already present → "already entered"; otherwise append the user id
and persist.  The current time is not consulted anywhere. -/
def enter (st : GiveawaysData) (gid mid uid : Nat) : EntryResult × GiveawaysData :=
  match lookupGive st gid mid with
  | none => (.notFound, st)
  | some g =>
    if uid ∈ g.entries then (.alreadyEntered, st)
    else (.entered, updateGive st gid mid { g with entries := g.entries ++ [uid] })

/-- `random.sample` position selection: draw `k` positions from `avail`
without replacement, using the injectable random source `r` (one draw per
step).  Each chosen position is removed from the pool before the next
draw. -/
def samplePositions (r : Nat → Nat) : Nat → List Nat → List Nat
  | 0, _ => []
  | _ + 1, [] => []
  | k + 1, a :: rest =>
    let j := r k % (a :: rest).length
    (a :: rest).getD j 0 :: samplePositions r k ((a :: rest).eraseIdx j)

/-- The positions `random.sample(entries, min(winner_count, len(entries)))`
draws (line 249). -/
def selectWinnerPositions (r : Nat → Nat) (wc n : Nat) : List Nat :=
  samplePositions r (min wc n) (List.range n)

/-- The sampled winner ids themselves. -/
def selectWinners (r : Nat → Nat) (wc : Nat) (entries : List Nat) : List Nat :=
  (selectWinnerPositions r wc entries.length).map (fun p => entries.getD p 0)

/-- The announcement `end_giveaway_logic` sends to the giveaway channel:
a distinct "no entries" message (line 247) or the winners message
(line 260). -/
inductive Announcement where
  | noEntries (prize : List Char)
  | winners (prize : List Char) (winnerIds : List Nat)
  deriving DecidableEq, Repr

/-- `end_giveaway_logic` (lines 226-270).  `fetchOk` tells whether the
channel/message fetch succeeds; on `discord.NotFound`/`HTTPException`
(lines 266-270) no announcement is sent but the record is still deleted.
In both branches the record is removed from the registry and persisted. -/
def endGiveawayLogic (r : Nat → Nat) (fetchOk : Bool) (gid : Nat)
    (g : StoredGiveaway) (st : GiveawaysData) : List Announcement × GiveawaysData :=
  if fetchOk then
    let ann := if g.entries = [] then Announcement.noEntries g.prize
      else Announcement.winners g.prize (selectWinners r g.winner_count g.entries)
    ([ann], removeGive st gid g.message_id)
  else ([], removeGive st gid g.message_id)

/-- The ephemeral reply of the `giveaway_end` command. -/
inductive EndReply where
  | ended
  | notFoundReply
  deriving DecidableEq, Repr

/-- `giveaway_end` (lines 1484-1494): reply "not found or has already
ended" when the id is absent from the guild's active registry, otherwise
run `end_giveaway_logic`. -/
def giveawayEndCmd (r : Nat → Nat) (fetchOk : Bool) (st : GiveawaysData)
    (gid mid : Nat) : List Announcement × GiveawaysData × EndReply :=
  match lookupGive st gid mid with
  | none => ([], st, .notFoundReply)
  | some g =>
    let res := endGiveawayLogic r fetchOk gid g st
    (res.1, res.2, .ended)

/-- The reply of the `giveaway_reroll` command. -/
inductive RerollResult where
  | rerolled (winner : Nat)
  | noEntriesReply
  | notFoundReply
  deriving DecidableEq, Repr

/-- The search loop of `giveaway_reroll` (lines 1502-1506): first guild
whose map holds `message_id`. -/
def findGiveawayAnyGuild (st : GiveawaysData) (mid : Nat) : Option StoredGiveaway :=
  match st with
  | [] => none
  | (_, gl) :: rest =>
    match gl.lookup mid with
    | some g => some g
    | none => findGiveawayAnyGuild rest mid

/-- `giveaway_reroll` (lines 1499-1530): "not found or is still active"
when no guild holds the id; "No entries found" when the list is empty;
otherwise `random.choice(entries)`. -/
def giveawayReroll (rc : Nat → Nat) (st : GiveawaysData) (mid : Nat) : RerollResult :=
  match findGiveawayAnyGuild st mid with
  | none => .notFoundReply
  | some g =>
    match g.entries with
    | [] => .noEntriesReply
    | e :: rest => .rerolled ((e :: rest).getD (rc 0 % (e :: rest).length) 0)

/-- The per-record classification of `check_giveaways` (lines 308-315):
a missing `end_time` key (`KeyError`) or an unparseable one (`ValueError`)
is caught and the record is appended to `expired_giveaways`; a parseable
one is expired iff `now >= end_time` (a naive stamp would raise
`TypeError`, which is not caught). -/
def classifyExpired (now : PyDatetime) (g : StoredGiveaway) : Except PyExc Bool :=
  match g.end_time with
  | none => .ok true
  | some s =>
    match fromisoformat s with
    | .error _ => .ok true
    | .ok d => pyGeDt now d

/-- The classification loop over one guild's records, in order. -/
def collectExpired (now : PyDatetime) :
    List (Nat × StoredGiveaway) → Except PyExc (List StoredGiveaway)
  | [] => .ok []
  | (_, g) :: rest =>
    match classifyExpired now g with
    | .error e => .error e
    | .ok true => (collectExpired now rest).map (fun l => g :: l)
    | .ok false => collectExpired now rest

/-- One tick of `check_giveaways` for one guild (lines 299-318): classify
every record, then run `end_giveaway_logic` on each expired one.
`fetchOk` gives the fetch outcome per message id. -/
def checkGiveawaysGuild (r : Nat → Nat) (fetchOk : Nat → Bool) (now : PyDatetime)
    (gid : Nat) (st : GiveawaysData) : Except PyExc (List Announcement × GiveawaysData) :=
  match st.lookup gid with
  | none => .ok ([], st)
  | some records =>
    match collectExpired now records with
    | .error e => .error e
    | .ok exp =>
      .ok (exp.foldl (fun acc g =>
        let res := endGiveawayLogic r (fetchOk g.message_id) gid g acc.2
        (acc.1 ++ res.1, res.2)) ([], st))

/-! ### Persistence (`load_data`/`save_data`, lines 60-77) and the stored
per-namespace JSON layout -/

/-- JSON values as `json.dump`/`json.load` shuttle them. -/
inductive JVal where
  | jstr : List Char → JVal
  | jint : Int → JVal
  | jarr : List JVal → JVal
  | jobj : List (List Char × JVal) → JVal

/-- Key lookup in a JSON object (Python dict subscripting). -/
def jlookup : List (List Char × JVal) → List Char → Option JVal
  | [], _ => none
  | (k, v) :: t, key => if k = key then some v else jlookup t key

/-- The `giveaway_info` dict literal the `giveaway` command persists
(lines 1461-1469), with `end_time` holding the `isoformat` string. -/
def encodeGiveaway (g : StoredGiveaway) : JVal :=
  .jobj [("channel_id".toList, .jint g.channel_id),
    ("message_id".toList, .jint g.message_id),
    ("prize".toList, .jstr g.prize),
    ("winner_count".toList, .jint g.winner_count),
    ("end_time".toList, .jstr (g.end_time.getD [])),
    ("entries".toList, .jarr (g.entries.map (fun (e : Nat) => JVal.jint e))),
    ("host".toList, .jint g.host)]

/-- Reading back a JSON array of user ids. -/
def decodeIntList : List JVal → Option (List Nat)
  | [] => some []
  | .jint v :: t => (decodeIntList t).map (fun l => v.toNat :: l)
  | _ :: _ => none

/-- Reading a reloaded record the way the rest of the program does
(subscripting each field by name, e.g. lines 228-232). -/
def decodeGiveaway : JVal → Option StoredGiveaway
  | .jobj fields =>
    match jlookup fields "channel_id".toList, jlookup fields "message_id".toList,
      jlookup fields "prize".toList, jlookup fields "winner_count".toList,
      jlookup fields "end_time".toList, jlookup fields "entries".toList,
      jlookup fields "host".toList with
    | some (.jint ch), some (.jint mi), some (.jstr pr), some (.jint wc),
      some (.jstr et), some (.jarr es), some (.jint ho) =>
      (decodeIntList es).map
        (fun entries => ⟨ch.toNat, mi.toNat, pr, wc.toNat, some et, entries, ho.toNat⟩)
    | _, _, _, _, _, _, _ => none
  | _ => none

/-- The filesystem the two helpers touch: filename → last JSON document
written. -/
abbrev FileSystem := List (List Char × JVal)

/-- `save_data` (lines 72-77): serialize the whole document to the file. -/
def save_data (filename : List Char) (data : JVal) (fs : FileSystem) : FileSystem :=
  (filename, data) :: fs

/-- `load_data` (lines 60-70): parse the file back, or the default when it
is absent. -/
def load_data (filename : List Char) (defaultValue : JVal) (fs : FileSystem) : JVal :=
  (jlookup fs filename).getD defaultValue

theorem decodeIntList_map (l : List Nat) :
    decodeIntList (l.map (fun (e : Nat) => JVal.jint e)) = some l := by
  induction l with
  | nil => rfl
  | cons e t ih =>
    simp only [List.map_cons, decodeIntList, ih, Option.map_some]
    rw [Int.toNat_natCast]
    rfl

theorem decode_encode_giveaway {g : StoredGiveaway} {s : List Char}
    (het : g.end_time = some s) : decodeGiveaway (encodeGiveaway g) = some g := by
  obtain ⟨ch, mi, pr, wc, et, es, ho⟩ := g
  simp only at het
  subst het
  show (decodeIntList (es.map (fun (e : Nat) => JVal.jint e))).map
      (fun entries => (⟨ch, mi, pr, wc, some s, entries, ho⟩ : StoredGiveaway))
      = some ⟨ch, mi, pr, wc, some s, es, ho⟩
  rw [decodeIntList_map]
  rfl

/-! ### Properties of the winner-sampling and the registry operations -/

theorem length_samplePositions (r : Nat → Nat) :
    ∀ (k : Nat) (avail : List Nat),
      (samplePositions r k avail).length = min k avail.length := by
  intro k
  induction k with
  | zero => intro avail; simp [samplePositions]
  | succ k ih =>
    intro avail
    cases avail with
    | nil => simp [samplePositions]
    | cons a rest =>
      have hj : r k % (a :: rest).length < (a :: rest).length :=
        Nat.mod_lt _ (by simp)
      rw [samplePositions, List.length_cons, ih, List.length_eraseIdx_of_lt hj]
      simp only [List.length_cons]
      omega

theorem mem_samplePositions (r : Nat → Nat) :
    ∀ (k : Nat) (avail : List Nat) (x : Nat),
      x ∈ samplePositions r k avail → x ∈ avail := by
  intro k
  induction k with
  | zero => intro avail x hx; simp [samplePositions] at hx
  | succ k ih =>
    intro avail x hx
    cases avail with
    | nil => simp [samplePositions] at hx
    | cons a rest =>
      rw [samplePositions] at hx
      have hj : r k % (a :: rest).length < (a :: rest).length :=
        Nat.mod_lt _ (by simp)
      rcases List.mem_cons.mp hx with rfl | hx2
      · rw [List.getD_eq_getElem _ _ hj]
        exact List.getElem_mem hj
      · exact List.mem_of_mem_eraseIdx (ih _ _ hx2)

theorem getElem_not_mem_eraseIdx {l : List Nat} {j : Nat} (hnd : l.Nodup)
    (hj : j < l.length) : l[j] ∉ l.eraseIdx j := by
  intro hmem
  rw [List.mem_eraseIdx_iff_getElem] at hmem
  obtain ⟨i, hi, hne, heq⟩ := hmem
  exact hne ((hnd.getElem_inj_iff).mp heq)

theorem nodup_samplePositions (r : Nat → Nat) :
    ∀ (k : Nat) (avail : List Nat), avail.Nodup →
      (samplePositions r k avail).Nodup := by
  intro k
  induction k with
  | zero => intro avail _; simp [samplePositions]
  | succ k ih =>
    intro avail hnd
    cases avail with
    | nil => simp [samplePositions]
    | cons a rest =>
      rw [samplePositions]
      have hj : r k % (a :: rest).length < (a :: rest).length :=
        Nat.mod_lt _ (by simp)
      refine List.Pairwise.cons ?_ (ih _ ((List.eraseIdx_sublist _ _).nodup hnd))
      intro x hx
      have hx2 := mem_samplePositions r k _ x hx
      rw [List.getD_eq_getElem _ _ hj]
      intro heq
      rw [← heq] at hx2
      exact getElem_not_mem_eraseIdx hnd hj hx2

theorem selectWinnerPositions_spec (r : Nat → Nat) (wc n : Nat) :
    (selectWinnerPositions r wc n).length = min wc n ∧
    (selectWinnerPositions r wc n).Nodup ∧
    ∀ p ∈ selectWinnerPositions r wc n, p < n := by
  refine ⟨?_, ?_, ?_⟩
  · rw [selectWinnerPositions, length_samplePositions]
    simp
  · exact nodup_samplePositions r _ _ (List.nodup_range n)
  · intro p hp
    exact List.mem_range.mp (mem_samplePositions r _ _ p hp)

theorem lookup_mapGuild (st : GiveawaysData) (gid g2 : Nat)
    (h : GuildGiveaways → GuildGiveaways) :
    (mapGuild st gid h).lookup g2
      = if g2 = gid then (st.lookup g2).map h else st.lookup g2 := by
  induction st with
  | nil => by_cases hg : g2 = gid <;> simp [mapGuild, hg]
  | cons p rest ih =>
    obtain ⟨k, gl⟩ := p
    rw [mapGuild, List.map_cons]
    rw [mapGuild] at ih
    by_cases hk : k = gid
    · subst hk
      rw [if_pos rfl]
      by_cases hg : g2 = k
      · subst hg
        simp [List.lookup_cons]
      · have hbeq : (g2 == k) = false := by simp [hg]
        simp [List.lookup_cons, hg, ih, hbeq]
    · rw [if_neg (show ¬(k, gl).1 = gid from hk)]
      by_cases hg : g2 = k
      · subst hg
        simp [List.lookup_cons, hk]
      · have hbeq : (g2 == k) = false := by simp [hg]
        simp [List.lookup_cons, hg, ih, hbeq]

theorem lookup_map_set {gl : GuildGiveaways} {mid : Nat} {g gOld : StoredGiveaway}
    (h : gl.lookup mid = some gOld) :
    (gl.map (fun q => if q.1 = mid then (q.1, g) else q)).lookup mid = some g := by
  induction gl with
  | nil => simp at h
  | cons q t ih =>
    obtain ⟨k, v⟩ := q
    by_cases hk : k = mid
    · subst hk
      simp only [List.map_cons, if_pos (show ((k, v) : Nat × StoredGiveaway).1 = k from rfl)]
      simp [List.lookup_cons]
    · have hbeq : (mid == k) = false := by simp [Ne.symm hk]
      rw [List.lookup_cons, hbeq] at h
      simp only [List.map_cons, if_neg (show ¬(k, v).1 = mid from hk)]
      rw [List.lookup_cons, hbeq]
      exact ih h

theorem lookup_map_filter_ne {gl : GuildGiveaways} {mid : Nat} :
    (gl.filter (fun q => q.1 != mid)).lookup mid = none := by
  rw [List.lookup_eq_none_iff]
  intro p hp
  have h2 := (List.mem_filter.mp hp).2
  simp only [bne_iff_ne] at h2 ⊢
  exact fun he => h2 he.symm

theorem lookup_filter_none {gl : GuildGiveaways} {mid : Nat}
    {f : Nat × StoredGiveaway → Bool} (h : gl.lookup mid = none) :
    (gl.filter f).lookup mid = none := by
  rw [List.lookup_eq_none_iff] at h ⊢
  intro p hp
  exact h p (List.mem_filter.mp hp).1

theorem lookupGive_removeGive_self (st : GiveawaysData) (gid mid : Nat) :
    lookupGive (removeGive st gid mid) gid mid = none := by
  rw [removeGive, lookupGive, lookup_mapGuild, if_pos rfl]
  cases hl : st.lookup gid with
  | none => rfl
  | some gl => exact lookup_map_filter_ne

theorem lookupGive_removeGive_none (st : GiveawaysData) (gid mid g1 m1 : Nat)
    (h : lookupGive st gid mid = none) :
    lookupGive (removeGive st g1 m1) gid mid = none := by
  rw [removeGive, lookupGive, lookup_mapGuild]
  rw [lookupGive] at h
  by_cases hg : gid = g1
  · rw [if_pos hg]
    cases hl : st.lookup gid with
    | none => rfl
    | some gl =>
      rw [hl] at h
      exact lookup_filter_none h
  · rw [if_neg hg]
    exact h

theorem lookupGive_updateGive_self (st : GiveawaysData) (gid mid : Nat)
    {g : StoredGiveaway} (g2 : StoredGiveaway)
    (h : lookupGive st gid mid = some g) :
    lookupGive (updateGive st gid mid g2) gid mid = some g2 := by
  rw [updateGive, lookupGive, lookup_mapGuild, if_pos rfl]
  rw [lookupGive] at h
  cases hl : st.lookup gid with
  | none => rw [hl] at h; exact absurd h (by simp)
  | some gl =>
    rw [hl] at h
    exact lookup_map_set h

theorem endGiveawayLogic_store (r : Nat → Nat) (fetchOk : Bool) (gid : Nat)
    (g : StoredGiveaway) (st : GiveawaysData) :
    (endGiveawayLogic r fetchOk gid g st).2 = removeGive st gid g.message_id := by
  rw [endGiveawayLogic]
  cases fetchOk <;> simp

theorem mem_collectExpired (now : PyDatetime) :
    ∀ (records : List (Nat × StoredGiveaway)) (exp : List StoredGiveaway)
      (mid : Nat) (g : StoredGiveaway),
      collectExpired now records = .ok exp → (mid, g) ∈ records →
      classifyExpired now g = .ok true → g ∈ exp := by
  intro records
  induction records with
  | nil => intro exp mid g _ hmem; simp at hmem
  | cons q rest ih =>
    intro exp mid g hok hmem hexp
    obtain ⟨mid2, g2⟩ := q
    rw [collectExpired] at hok
    rcases List.mem_cons.mp hmem with heq | hmem2
    · injection heq with h1 h2
      subst h2
      rw [hexp] at hok
      cases hrest : collectExpired now rest with
      | error e => rw [hrest] at hok; exact absurd hok (by simp [Except.map])
      | ok l =>
        rw [hrest] at hok
        simp only [Except.map, Except.ok.injEq] at hok
        subst hok
        exact List.mem_cons_self _ _
    · cases hcl : classifyExpired now g2 with
      | error e => rw [hcl] at hok; exact absurd hok (by simp)
      | ok b =>
        rw [hcl] at hok
        cases b with
        | true =>
          cases hrest : collectExpired now rest with
          | error e => rw [hrest] at hok; exact absurd hok (by simp [Except.map])
          | ok l =>
            rw [hrest] at hok
            simp only [Except.map, Except.ok.injEq] at hok
            subst hok
            exact List.mem_cons_of_mem _ (ih l mid g hrest hmem2 hexp)
        | false => exact ih exp mid g hok hmem2 hexp

theorem fold_removes (r : Nat → Nat) (fetchOk : Nat → Bool) (gid : Nat)
    (g : StoredGiveaway) :
    ∀ (exp : List StoredGiveaway) (acc : List Announcement × GiveawaysData),
      (g ∈ exp ∨ lookupGive acc.2 gid g.message_id = none) →
      lookupGive
        (exp.foldl (fun acc g2 =>
          let res := endGiveawayLogic r (fetchOk g2.message_id) gid g2 acc.2
          (acc.1 ++ res.1, res.2)) acc).2 gid g.message_id = none := by
  intro exp
  induction exp with
  | nil =>
    intro acc hg
    rcases hg with hg | hg
    · simp at hg
    · exact hg
  | cons g2 rest ih =>
    intro acc hg
    rw [List.foldl_cons]
    apply ih
    rcases hg with hg | hg
    · rcases List.mem_cons.mp hg with rfl | hmem
      · right
        simp only [endGiveawayLogic_store]
        exact lookupGive_removeGive_self _ _ _
      · left; exact hmem
    · right
      simp only [endGiveawayLogic_store]
      exact lookupGive_removeGive_none _ _ _ _ _ hg

theorem giveawayEndCmd_absent (r : Nat → Nat) (fok : Bool) (st : GiveawaysData)
    (gid mid : Nat) (h : lookupGive st gid mid = none) :
    giveawayEndCmd r fok st gid mid = ([], st, .notFoundReply) := by
  rw [giveawayEndCmd, h]

theorem enter_already (st : GiveawaysData) (gid mid uid : Nat) (g : StoredGiveaway)
    (h : lookupGive st gid mid = some g) (hmem : uid ∈ g.entries) :
    enter st gid mid uid = (.alreadyEntered, st) := by
  rw [enter, h]
  simp [hmem]

/-- C2: ending a giveaway twice through the guarded `giveaway_end` command
produces exactly one announcement; after the first call the giveaway is
absent from the active registry; the second call is a state-preserving
no-op that returns normally with the "not found" reply rather than
raising. -/
theorem c2_conclude_idempotent (r : Nat → Nat) (st : GiveawaysData)
    (gid mid : Nat) (g : StoredGiveaway)
    (hpresent : lookupGive st gid mid = some g) (hmid : g.message_id = mid) :
    (giveawayEndCmd r true st gid mid).1.length = 1 ∧
    (giveawayEndCmd r true st gid mid).2.2 = .ended ∧
    lookupGive (giveawayEndCmd r true st gid mid).2.1 gid mid = none ∧
    (giveawayEndCmd r true (giveawayEndCmd r true st gid mid).2.1 gid mid).1 = [] ∧
    (giveawayEndCmd r true (giveawayEndCmd r true st gid mid).2.1 gid mid).2.1
      = (giveawayEndCmd r true st gid mid).2.1 ∧
    (giveawayEndCmd r true (giveawayEndCmd r true st gid mid).2.1 gid mid).2.2
      = .notFoundReply := by
  have h1 : giveawayEndCmd r true st gid mid
      = ((endGiveawayLogic r true gid g st).1,
          (endGiveawayLogic r true gid g st).2, .ended) := by
    rw [giveawayEndCmd, hpresent]
  have habsent : lookupGive (giveawayEndCmd r true st gid mid).2.1 gid mid = none := by
    rw [h1]
    simp only [endGiveawayLogic_store, hmid]
    exact lookupGive_removeGive_self st gid mid
  have h2 := giveawayEndCmd_absent r true (giveawayEndCmd r true st gid mid).2.1
    gid mid habsent
  refine ⟨?_, ?_, habsent, ?_, ?_, ?_⟩
  · rw [h1]
    rw [endGiveawayLogic]
    simp
  · rw [h1]
  · rw [h2]
  · rw [h2]
  · rw [h2]

/-- Witness for C2 at a concrete one-giveaway registry. -/
theorem c2_conclude_idempotent_witness :
    lookupGive [(1, [(100, ⟨5, 100, ['p'], 1, none, [42], 9⟩)])] 1 100
      = some ⟨5, 100, ['p'], 1, none, [42], 9⟩ ∧
    (⟨5, 100, ['p'], 1, none, [42], 9⟩ : StoredGiveaway).message_id = 100 ∧
    ((giveawayEndCmd (fun _ => 0) true
        [(1, [(100, ⟨5, 100, ['p'], 1, none, [42], 9⟩)])] 1 100).1.length = 1 ∧
      (giveawayEndCmd (fun _ => 0) true
        [(1, [(100, ⟨5, 100, ['p'], 1, none, [42], 9⟩)])] 1 100).2.2 = .ended ∧
      lookupGive (giveawayEndCmd (fun _ => 0) true
        [(1, [(100, ⟨5, 100, ['p'], 1, none, [42], 9⟩)])] 1 100).2.1 1 100 = none ∧
      (giveawayEndCmd (fun _ => 0) true (giveawayEndCmd (fun _ => 0) true
        [(1, [(100, ⟨5, 100, ['p'], 1, none, [42], 9⟩)])] 1 100).2.1 1 100).1 = [] ∧
      (giveawayEndCmd (fun _ => 0) true (giveawayEndCmd (fun _ => 0) true
        [(1, [(100, ⟨5, 100, ['p'], 1, none, [42], 9⟩)])] 1 100).2.1 1 100).2.1
        = (giveawayEndCmd (fun _ => 0) true
          [(1, [(100, ⟨5, 100, ['p'], 1, none, [42], 9⟩)])] 1 100).2.1 ∧
      (giveawayEndCmd (fun _ => 0) true (giveawayEndCmd (fun _ => 0) true
        [(1, [(100, ⟨5, 100, ['p'], 1, none, [42], 9⟩)])] 1 100).2.1 1 100).2.2
        = .notFoundReply) :=
  ⟨rfl, rfl,
    c2_conclude_idempotent (fun _ => 0)
      [(1, [(100, ⟨5, 100, ['p'], 1, none, [42], 9⟩)])] 1 100
      ⟨5, 100, ['p'], 1, none, [42], 9⟩ rfl rfl⟩

/-- C3 (counterexample): the claim says an entry at or after the deadline
cannot succeed, but `GiveawayView.enter` never consults the clock: with a
stored deadline of 2020-01-01 and `now` in 2021 (`now >= deadline` holds),
the entry still succeeds. -/
theorem c3_counterexample :
    fromisoformat ("2020-01-01T00:00:00+00:00".toList)
      = .ok ⟨2020, 1, 1, 0, 0, 0, 0, some 0⟩ ∧
    pyGeDt ⟨2021, 1, 1, 0, 0, 0, 0, some 0⟩ ⟨2020, 1, 1, 0, 0, 0, 0, some 0⟩
      = .ok true ∧
    (enter [(1, [(100, ⟨5, 100, ['p'], 1,
        some ("2020-01-01T00:00:00+00:00".toList), [], 9⟩)])] 1 100 42).1
      = .entered := by
  refine ⟨rfl, rfl, rfl⟩

/-- C3 (amended): an entry succeeds exactly when the giveaway is present
in the guild's active registry and the participant is not already entered;
the deadline is never consulted, so entries at or after the deadline
succeed until the sweep removes the record. -/
theorem c3_entry_gate_amended (st : GiveawaysData) (gid mid uid : Nat) :
    (enter st gid mid uid).1 = .entered ↔
      ∃ g, lookupGive st gid mid = some g ∧ uid ∉ g.entries := by
  cases hl : lookupGive st gid mid with
  | none =>
    rw [enter, hl]
    simp
  | some g =>
    rw [enter, hl]
    by_cases hm : uid ∈ g.entries
    · simp [hm]
    · simp [hm]

/-- C4: a second `enter` by the same participant reports
"already entered", leaves the registry unchanged, and the entries list
grows by exactly one across the two calls and stays duplicate-free. -/
theorem c4_enter_twice (st : GiveawaysData) (gid mid uid : Nat) (g : StoredGiveaway)
    (hpresent : lookupGive st gid mid = some g) (hnew : uid ∉ g.entries) :
    (enter st gid mid uid).1 = .entered ∧
    lookupGive (enter st gid mid uid).2 gid mid
      = some { g with entries := g.entries ++ [uid] } ∧
    (g.entries ++ [uid]).length = g.entries.length + 1 ∧
    (enter (enter st gid mid uid).2 gid mid uid).1 = .alreadyEntered ∧
    (enter (enter st gid mid uid).2 gid mid uid).2 = (enter st gid mid uid).2 ∧
    (g.entries.Nodup → (g.entries ++ [uid]).Nodup) := by
  have h1 : enter st gid mid uid
      = (.entered, updateGive st gid mid { g with entries := g.entries ++ [uid] }) := by
    rw [enter, hpresent]
    simp [hnew]
  have h2 : lookupGive (enter st gid mid uid).2 gid mid
      = some { g with entries := g.entries ++ [uid] } := by
    rw [h1]
    exact lookupGive_updateGive_self st gid mid _ hpresent
  have hmem : uid ∈ ({ g with entries := g.entries ++ [uid] } : StoredGiveaway).entries := by
    simp
  have h3 := enter_already (enter st gid mid uid).2 gid mid uid _ h2 hmem
  refine ⟨by rw [h1], h2, by simp, by rw [h3], by rw [h3], ?_⟩
  intro hnd
  rw [List.nodup_append]
  refine ⟨hnd, List.nodup_singleton _, ?_⟩
  intro x hx hx2
  simp only [List.mem_singleton] at hx2
  subst hx2
  exact hnew hx

/-- Witness for C4 at a concrete registry. -/
theorem c4_enter_twice_witness :
    lookupGive [(1, [(100, ⟨5, 100, ['p'], 1, none, [7], 9⟩)])] 1 100
      = some ⟨5, 100, ['p'], 1, none, [7], 9⟩ ∧
    (42 : Nat) ∉ (⟨5, 100, ['p'], 1, none, [7], 9⟩ : StoredGiveaway).entries ∧
    ((enter [(1, [(100, ⟨5, 100, ['p'], 1, none, [7], 9⟩)])] 1 100 42).1 = .entered ∧
      lookupGive (enter [(1, [(100, ⟨5, 100, ['p'], 1, none, [7], 9⟩)])] 1 100 42).2 1 100
        = some { (⟨5, 100, ['p'], 1, none, [7], 9⟩ : StoredGiveaway) with
            entries := (⟨5, 100, ['p'], 1, none, [7], 9⟩ : StoredGiveaway).entries ++ [42] } ∧
      ((⟨5, 100, ['p'], 1, none, [7], 9⟩ : StoredGiveaway).entries ++ [42]).length
        = (⟨5, 100, ['p'], 1, none, [7], 9⟩ : StoredGiveaway).entries.length + 1 ∧
      (enter (enter [(1, [(100, ⟨5, 100, ['p'], 1, none, [7], 9⟩)])] 1 100 42).2 1 100 42).1
        = .alreadyEntered ∧
      (enter (enter [(1, [(100, ⟨5, 100, ['p'], 1, none, [7], 9⟩)])] 1 100 42).2 1 100 42).2
        = (enter [(1, [(100, ⟨5, 100, ['p'], 1, none, [7], 9⟩)])] 1 100 42).2 ∧
      ((⟨5, 100, ['p'], 1, none, [7], 9⟩ : StoredGiveaway).entries.Nodup →
        ((⟨5, 100, ['p'], 1, none, [7], 9⟩ : StoredGiveaway).entries ++ [42]).Nodup)) :=
  ⟨rfl, by decide,
    c4_enter_twice [(1, [(100, ⟨5, 100, ['p'], 1, none, [7], 9⟩)])] 1 100 42
      ⟨5, 100, ['p'], 1, none, [7], 9⟩ rfl (by decide)⟩

/-- C1: for any winner count `>= 1` and any entries list, the completion
operation's `random.sample` call draws exactly
`min(winner_count, len(entries))` positions of the entries list, pairwise
distinct (without replacement) and all in range, for every random source;
and when entries is non-empty the winners announcement carries exactly the
ids at those positions. -/
theorem c1_completion_selects_min_distinct (r : Nat → Nat) (wc : Nat)
    (entries : List Nat) (_hwc : 1 ≤ wc) :
    (selectWinnerPositions r wc entries.length).length = min wc entries.length ∧
    (selectWinnerPositions r wc entries.length).Nodup ∧
    (∀ p ∈ selectWinnerPositions r wc entries.length, p < entries.length) ∧
    (∀ gid g st, g.entries = entries → g.winner_count = wc → g.entries ≠ [] →
      (endGiveawayLogic r true gid g st).1
        = [Announcement.winners g.prize (selectWinners r wc entries)]) := by
  obtain ⟨h1, h2, h3⟩ := selectWinnerPositions_spec r wc entries.length
  refine ⟨h1, h2, h3, ?_⟩
  intro gid g st he hw hne
  rw [he] at hne
  rw [endGiveawayLogic]
  simp [hne, he, hw]

/-- Witness for C1 with two winners over three entries. -/
theorem c1_completion_selects_min_distinct_witness :
    1 ≤ 2 ∧
    ((selectWinnerPositions (fun _ => 0) 2 ([10, 20, 30] : List Nat).length).length
        = min 2 ([10, 20, 30] : List Nat).length ∧
      (selectWinnerPositions (fun _ => 0) 2 ([10, 20, 30] : List Nat).length).Nodup ∧
      (∀ p ∈ selectWinnerPositions (fun _ => 0) 2 ([10, 20, 30] : List Nat).length,
        p < ([10, 20, 30] : List Nat).length) ∧
      (∀ gid g st, g.entries = [10, 20, 30] → g.winner_count = 2 → g.entries ≠ [] →
        (endGiveawayLogic (fun _ => 0) true gid g st).1
          = [Announcement.winners g.prize (selectWinners (fun _ => 0) 2 [10, 20, 30])])) :=
  ⟨by decide, c1_completion_selects_min_distinct (fun _ => 0) 2 [10, 20, 30] (by decide)⟩

/-- C5: completing a giveaway with an empty entries list produces the
distinct "no entries" announcement referencing the prize — a different
constructor from any winners-success announcement, and no exception. -/
theorem c5_empty_entries_distinct_announcement (r : Nat → Nat) (gid : Nat)
    (g : StoredGiveaway) (st : GiveawaysData) (hempty : g.entries = []) :
    (endGiveawayLogic r true gid g st).1 = [Announcement.noEntries g.prize] ∧
    (∀ p ws, Announcement.noEntries g.prize ≠ Announcement.winners p ws) := by
  constructor
  · rw [endGiveawayLogic]
    simp [hempty]
  · intro p ws h
    exact Announcement.noConfusion h

/-- Witness for C5 at a concrete empty-entries giveaway. -/
theorem c5_empty_entries_distinct_announcement_witness :
    (⟨5, 100, ['p'], 1, none, [], 9⟩ : StoredGiveaway).entries = [] ∧
    ((endGiveawayLogic (fun _ => 0) true 1 ⟨5, 100, ['p'], 1, none, [], 9⟩ []).1
        = [Announcement.noEntries (⟨5, 100, ['p'], 1, none, [], 9⟩ : StoredGiveaway).prize] ∧
      ∀ p ws, Announcement.noEntries
          (⟨5, 100, ['p'], 1, none, [], 9⟩ : StoredGiveaway).prize
        ≠ Announcement.winners p ws) :=
  ⟨rfl, c5_empty_entries_distinct_announcement (fun _ => 0) 1
    ⟨5, 100, ['p'], 1, none, [], 9⟩ [] rfl⟩

/-- C6 (code-bug evidence): `end_giveaway_logic` deletes the record from
the very dictionary `giveaway_reroll` searches, so after conclusion a
reroll of a giveaway with retained non-empty entries reports
"Giveaway not found or is still active" instead of choosing a participant;
before conclusion the same reroll works. -/
theorem c6_reroll_after_conclude_not_found :
    lookupGive [(1, [(100, ⟨5, 100, ['p'], 1, none, [42, 43], 9⟩)])] 1 100
      = some ⟨5, 100, ['p'], 1, none, [42, 43], 9⟩ ∧
    (⟨5, 100, ['p'], 1, none, [42, 43], 9⟩ : StoredGiveaway).entries ≠ [] ∧
    giveawayReroll (fun _ => 0)
      (endGiveawayLogic (fun _ => 0) true 1 ⟨5, 100, ['p'], 1, none, [42, 43], 9⟩
        [(1, [(100, ⟨5, 100, ['p'], 1, none, [42, 43], 9⟩)])]).2 100
      = .notFoundReply ∧
    giveawayReroll (fun _ => 0) [(1, [(100, ⟨5, 100, ['p'], 1, none, [42, 43], 9⟩)])] 100
      = .rerolled 42 := by
  refine ⟨rfl, by simp, rfl, rfl⟩

/-- C9: a created giveaway record serialized to the persisted JSON layout
and reloaded through the store reproduces identical `entries`,
`end_time` deadline, `prize` and `winner_count`; the stored ISO string
parses back to exactly the datetime it was rendered from. -/
theorem c9_save_load_roundtrip (g : StoredGiveaway) (dt : PyDatetime)
    (fs : FileSystem) (fn : List Char) (dv : JVal)
    (hv : validDT dt) (ho : dt.offsetMinutes = some 0)
    (het : g.end_time = some (isoformat dt)) :
    load_data fn dv (save_data fn (encodeGiveaway g) fs) = encodeGiveaway g ∧
    decodeGiveaway (encodeGiveaway g) = some g ∧
    (∀ s, g.end_time = some s → fromisoformat s = .ok dt) := by
  refine ⟨?_, decode_encode_giveaway het, ?_⟩
  · rw [load_data, save_data, jlookup, if_pos rfl]
    rfl
  · intro s hs
    rw [het] at hs
    injection hs with hs
    rw [← hs]
    exact fromisoformat_isoformat hv ho

/-- Witness for C9 at a concrete giveaway and deadline. -/
theorem c9_save_load_roundtrip_witness :
    validDT ⟨2025, 6, 1, 12, 0, 0, 0, some 0⟩ ∧
    (⟨2025, 6, 1, 12, 0, 0, 0, some 0⟩ : PyDatetime).offsetMinutes = some 0 ∧
    (⟨5, 100, ['p'], 2, some (isoformat ⟨2025, 6, 1, 12, 0, 0, 0, some 0⟩),
        [42, 43], 9⟩ : StoredGiveaway).end_time
      = some (isoformat ⟨2025, 6, 1, 12, 0, 0, 0, some 0⟩) ∧
    (load_data "giveaways.json".toList (.jobj [])
        (save_data "giveaways.json".toList
          (encodeGiveaway ⟨5, 100, ['p'], 2,
            some (isoformat ⟨2025, 6, 1, 12, 0, 0, 0, some 0⟩), [42, 43], 9⟩) [])
        = encodeGiveaway ⟨5, 100, ['p'], 2,
            some (isoformat ⟨2025, 6, 1, 12, 0, 0, 0, some 0⟩), [42, 43], 9⟩ ∧
      decodeGiveaway (encodeGiveaway ⟨5, 100, ['p'], 2,
            some (isoformat ⟨2025, 6, 1, 12, 0, 0, 0, some 0⟩), [42, 43], 9⟩)
        = some ⟨5, 100, ['p'], 2,
            some (isoformat ⟨2025, 6, 1, 12, 0, 0, 0, some 0⟩), [42, 43], 9⟩ ∧
      (∀ s, (⟨5, 100, ['p'], 2, some (isoformat ⟨2025, 6, 1, 12, 0, 0, 0, some 0⟩),
          [42, 43], 9⟩ : StoredGiveaway).end_time = some s →
        fromisoformat s = .ok ⟨2025, 6, 1, 12, 0, 0, 0, some 0⟩)) :=
  ⟨by decide, rfl, rfl,
    c9_save_load_roundtrip
      ⟨5, 100, ['p'], 2, some (isoformat ⟨2025, 6, 1, 12, 0, 0, 0, some 0⟩), [42, 43], 9⟩
      ⟨2025, 6, 1, 12, 0, 0, 0, some 0⟩ [] "giveaways.json".toList (.jobj [])
      (by decide) rfl rfl⟩

/-- C10: a stored record whose `end_time` key is missing or whose value
does not parse is classified as expired by the next `check_giveaways`
tick, handed to the completion pipeline, and removed from the store. -/
theorem c10_malformed_end_time_reaped (r : Nat → Nat) (fok : Nat → Bool)
    (now : PyDatetime) (gid mid : Nat) (st : GiveawaysData)
    (records : List (Nat × StoredGiveaway)) (g : StoredGiveaway)
    (exp : List StoredGiveaway)
    (hrec : st.lookup gid = some records)
    (hmem : (mid, g) ∈ records) (hmid : g.message_id = mid)
    (hbad : g.end_time = none ∨
      ∃ s e, g.end_time = some s ∧ fromisoformat s = .error e)
    (hok : collectExpired now records = .ok exp) :
    g ∈ exp ∧
    ∃ anns st2, checkGiveawaysGuild r fok now gid st = .ok (anns, st2) ∧
      lookupGive st2 gid mid = none := by
  have hclass : classifyExpired now g = .ok true := by
    rcases hbad with hnone | ⟨s, e, hsome, herr⟩
    · rw [classifyExpired, hnone]
    · rw [classifyExpired, hsome]
      simp [herr]
  have hin : g ∈ exp := mem_collectExpired now records exp mid g hok hmem hclass
  refine ⟨hin, ?_⟩
  rw [checkGiveawaysGuild, hrec]
  simp only [hok]
  refine ⟨_, _, rfl, ?_⟩
  have h2 := fold_removes r fok gid g exp ([], st) (Or.inl hin)
  rwa [hmid] at h2

/-- Witness for C10 at a record with no `end_time` key. -/
theorem c10_malformed_end_time_reaped_witness :
    ([(1, [(100, ⟨5, 100, ['p'], 1, none, [], 9⟩)])] : GiveawaysData).lookup 1
      = some [(100, ⟨5, 100, ['p'], 1, none, [], 9⟩)] ∧
    ((100 : Nat), (⟨5, 100, ['p'], 1, none, [], 9⟩ : StoredGiveaway))
      ∈ [((100 : Nat), (⟨5, 100, ['p'], 1, none, [], 9⟩ : StoredGiveaway))] ∧
    (⟨5, 100, ['p'], 1, none, [], 9⟩ : StoredGiveaway).message_id = 100 ∧
    ((⟨5, 100, ['p'], 1, none, [], 9⟩ : StoredGiveaway).end_time = none ∨
      ∃ s e, (⟨5, 100, ['p'], 1, none, [], 9⟩ : StoredGiveaway).end_time = some s ∧
        fromisoformat s = .error e) ∧
    collectExpired ⟨2020, 1, 1, 0, 0, 0, 0, some 0⟩
        [(100, ⟨5, 100, ['p'], 1, none, [], 9⟩)]
      = .ok [⟨5, 100, ['p'], 1, none, [], 9⟩] ∧
    ((⟨5, 100, ['p'], 1, none, [], 9⟩ : StoredGiveaway)
        ∈ [(⟨5, 100, ['p'], 1, none, [], 9⟩ : StoredGiveaway)] ∧
      ∃ anns st2, checkGiveawaysGuild (fun _ => 0) (fun _ => true)
          ⟨2020, 1, 1, 0, 0, 0, 0, some 0⟩ 1
          [(1, [(100, ⟨5, 100, ['p'], 1, none, [], 9⟩)])]
          = .ok (anns, st2) ∧
        lookupGive st2 1 100 = none) :=
  ⟨rfl, by decide, rfl, Or.inl rfl, rfl,
    c10_malformed_end_time_reaped (fun _ => 0) (fun _ => true)
      ⟨2020, 1, 1, 0, 0, 0, 0, some 0⟩ 1 100
      [(1, [(100, ⟨5, 100, ['p'], 1, none, [], 9⟩)])]
      [(100, ⟨5, 100, ['p'], 1, none, [], 9⟩)]
      ⟨5, 100, ['p'], 1, none, [], 9⟩
      [⟨5, 100, ['p'], 1, none, [], 9⟩]
      rfl (by decide) rfl (Or.inl rfl) rfl⟩

end NorthernHub
